import Mathlib

/-!
Shallow embedding of the geometric core of the `police-plate-gate`
license-plate pipeline (`src/DetectChars.py`, `src/DetectPlates.py`).

Bounding-rectangle coordinates are Python ints, modelled as `ℤ`; contour
areas are Python floats produced by `cv2.contourArea`, modelled exactly
as `ℚ`; the float computations `math.sqrt` and `math.atan` are modelled
as the corresponding real functions.  Python code that can raise
(`ZeroDivisionError`, `IndexError`) is modelled with `Option`.
-/

namespace DetectChars

/-- Constants from the head of `DetectChars.py`. -/
def MIN_PIXEL_WIDTH : ℤ := 2

def MIN_PIXEL_HEIGHT : ℤ := 8

def MIN_ASPECT_RATIO : ℚ := 0.25

def MAX_ASPECT_RATIO : ℚ := 1.0

def MIN_PIXEL_AREA : ℚ := 80

def MIN_DIAG_SIZE_MULTIPLE_AWAY : ℝ := 0.3

def MAX_DIAG_SIZE_MULTIPLE_AWAY : ℝ := 5.0

def MAX_CHANGE_IN_AREA : ℚ := 0.5

def MAX_CHANGE_IN_WIDTH : ℚ := 0.8

def MAX_CHANGE_IN_HEIGHT : ℚ := 0.2

def MAX_ANGLE_BETWEEN_CHARS : ℝ := 12.0

def MIN_NUMBER_OF_MATCHING_CHARS : ℕ := 3

def RESIZED_CHAR_IMAGE_WIDTH : ℤ := 20

def RESIZED_CHAR_IMAGE_HEIGHT : ℤ := 30

def MIN_CONTOUR_AREA : ℚ := 100

/-- `ContourWithData` from `DetectChars.py`: the cached bounding rectangle
(`calculateRectTopLeftPointAndWidthAndHeight`) and the cached contour area.
The traced point sequence itself is irrelevant to the geometric core and is
not carried. -/
structure ContourWithData where
  intRectX : ℤ
  intRectY : ℤ
  intRectWidth : ℤ
  intRectHeight : ℤ
  fltArea : ℚ
deriving DecidableEq, Repr

/-- `ContourWithData.checkIfContourIsValid`: the per-plate pass accepts a
contour unless its area is below `MIN_CONTOUR_AREA`. -/
def ContourWithData.checkIfContourIsValid (self : ContourWithData) : Bool :=
  if self.fltArea < MIN_CONTOUR_AREA then false else true

/-- `distanceBetweenChars`: Euclidean distance between the two bounding
rectangles' top-left corners, `math.sqrt((intX ** 2) + (intY ** 2))`. -/
noncomputable def distanceBetweenChars (firstChar secondChar : ContourWithData) : ℝ :=
  let intX : ℤ := |firstChar.intRectX - secondChar.intRectX|
  let intY : ℤ := |firstChar.intRectY - secondChar.intRectY|
  Real.sqrt ((intX : ℝ) ^ 2 + (intY : ℝ) ^ 2)

/-- `angleBetweenChars`: `atan(fltOpp / fltAdj)` when the horizontal offset
is nonzero, the literal `1.5708` radians otherwise, converted to degrees.
The zero test on the float `fltAdj` is the zero test on the exact integer
it converts. -/
noncomputable def angleBetweenChars (firstChar secondChar : ContourWithData) : ℝ :=
  let intAdj : ℤ := |firstChar.intRectX - secondChar.intRectX|
  let intOpp : ℤ := |firstChar.intRectY - secondChar.intRectY|
  let fltAngleInRad : ℝ :=
    if intAdj ≠ 0 then Real.arctan ((intOpp : ℝ) / (intAdj : ℝ)) else 1.5708
  fltAngleInRad * (180.0 / Real.pi)

/-- The five-way conjunction tested inside `findListOfMatchingChars`.
Distance and angle comparisons are float comparisons (modelled in `ℝ`);
the three relative-change ratios are exact quotients of the stored data
(modelled in `ℚ`). -/
def matchesChars (possibleChar possibleMatchingChar : ContourWithData) : Prop :=
  distanceBetweenChars possibleChar possibleMatchingChar <
      (possibleChar.fltArea : ℝ) * MAX_DIAG_SIZE_MULTIPLE_AWAY ∧
    angleBetweenChars possibleChar possibleMatchingChar < MAX_ANGLE_BETWEEN_CHARS ∧
    |possibleMatchingChar.fltArea - possibleChar.fltArea| / possibleChar.fltArea <
      MAX_CHANGE_IN_AREA ∧
    ((|possibleMatchingChar.intRectWidth - possibleChar.intRectWidth| : ℤ) : ℚ) /
        (possibleChar.intRectWidth : ℚ) < MAX_CHANGE_IN_WIDTH ∧
    ((|possibleMatchingChar.intRectHeight - possibleChar.intRectHeight| : ℤ) : ℚ) /
        (possibleChar.intRectHeight : ℚ) < MAX_CHANGE_IN_HEIGHT

open scoped Classical in
/-- `findListOfMatchingChars`: every other contour of the list that passes
the five-way test against `possibleChar`, in list order.  The Python
identity test `possibleMatchingChar == possibleChar` is modelled as value
inequality (exact on duplicate-free inputs). -/
noncomputable def findListOfMatchingChars (possibleChar : ContourWithData)
    (listOfChars : List ContourWithData) : List ContourWithData :=
  listOfChars.filter fun possibleMatchingChar =>
    decide (possibleMatchingChar ≠ possibleChar ∧ matchesChars possibleChar possibleMatchingChar)

/-- `removeInnerOverlappingChars`: a contour survives unless some other
member of the same group strictly contains its bounding rectangle on all
four sides. -/
def removeInnerOverlappingChars (listOfMatchingChars : List ContourWithData) :
    List ContourWithData :=
  listOfMatchingChars.filter fun currentChar =>
    decide (¬ ∃ otherChar ∈ listOfMatchingChars, otherChar ≠ currentChar ∧
      currentChar.intRectX > otherChar.intRectX ∧
      currentChar.intRectY > otherChar.intRectY ∧
      currentChar.intRectX + currentChar.intRectWidth <
        otherChar.intRectX + otherChar.intRectWidth ∧
      currentChar.intRectY + currentChar.intRectHeight <
        otherChar.intRectY + otherChar.intRectHeight)

/-- Filtering a list that contains an element failing the predicate yields a
strictly shorter list (termination measure for the recursive clustering). -/
theorem length_filter_lt {α : Type} (p : α → Bool) (L : List α) (x : α)
    (hx : x ∈ L) (hpx : p x = false) : (L.filter p).length < L.length := by
  induction L with
  | nil => cases hx
  | cons a t ih =>
    rcases List.mem_cons.1 hx with rfl | hxt
    · rw [List.filter_cons, hpx]
      exact Nat.lt_succ_of_le (List.length_filter_le p t)
    · rw [List.filter_cons]
      cases hpa : p a
      · simpa using Nat.lt_succ_of_lt (ih hxt)
      · simpa using Nat.succ_lt_succ (ih hxt)

open scoped Classical in
/-- The group grown from `contour` inside `findListOfListsOfMatchingChars`:
`listOfMatchingChars = findListOfMatchingChars(contour, listOfContours)`
with `contour` itself appended. -/
noncomputable def matchGroup (contour : ContourWithData)
    (listOfContours : List ContourWithData) : List ContourWithData :=
  findListOfMatchingChars contour listOfContours ++ [contour]

/-- The `listOfContoursWithoutMatchingChars` built after emitting a group:
the members of `listOfContours` that are in neither
`[contour]` nor the emitted group. -/
noncomputable def remainderAfter (contour : ContourWithData)
    (listOfContours : List ContourWithData) : List ContourWithData :=
  listOfContours.filter fun x => decide (x ∉ contour :: matchGroup contour listOfContours)

/-- A group that reaches the emit branch removes at least its matching
members from the list, so the remainder is strictly shorter. -/
theorem remainderAfter_length_lt (contour : ContourWithData)
    (listOfContours : List ContourWithData)
    (h : ¬ (matchGroup contour listOfContours).length < MIN_NUMBER_OF_MATCHING_CHARS) :
    (remainderAfter contour listOfContours).length < listOfContours.length := by
  have hM : (findListOfMatchingChars contour listOfContours).length + 1 ≥
      MIN_NUMBER_OF_MATCHING_CHARS := by
    have := Nat.le_of_not_lt h
    simpa [matchGroup] using this
  have hne : findListOfMatchingChars contour listOfContours ≠ [] := by
    intro hnil
    rw [hnil] at hM
    simp [MIN_NUMBER_OF_MATCHING_CHARS] at hM
  obtain ⟨y, hy⟩ := List.exists_mem_of_ne_nil _ hne
  have hyL : y ∈ listOfContours := List.mem_of_mem_filter hy
  have hyG : y ∈ contour :: matchGroup contour listOfContours := by
    exact List.mem_cons_of_mem _ (by simp [matchGroup, List.mem_append, hy])
  exact length_filter_lt _ listOfContours y hyL (by simp [hyG])

/-- The recursive scan of `findListOfListsOfMatchingChars`.  `pending` is the
tail of the outer `for contour in listOfContours` loop still to be tried
(`continue` on a too-small group); on its first successful contour the scan
emits the group and restarts on the remainder (`break` after appending the
recursive results). -/
noncomputable def fllomcScan : List ContourWithData → List ContourWithData →
    List (List ContourWithData)
  | [], _ => []
  | contour :: pendingRest, listOfContours =>
    if (matchGroup contour listOfContours).length < MIN_NUMBER_OF_MATCHING_CHARS then
      fllomcScan pendingRest listOfContours
    else
      matchGroup contour listOfContours ::
        fllomcScan (remainderAfter contour listOfContours)
          (remainderAfter contour listOfContours)
termination_by pending L => (L.length, pending.length)
decreasing_by
  · exact Prod.Lex.right _ (Nat.lt_succ_self _)
  · exact Prod.Lex.left _ _ (remainderAfter_length_lt _ _ (by assumption))

/-- `findListOfListsOfMatchingChars`: the outer loop starts with the whole
input both as the pending iteration and as the candidate pool. -/
noncomputable def findListOfListsOfMatchingChars
    (listOfContours : List ContourWithData) : List (List ContourWithData) :=
  fllomcScan listOfContours listOfContours

end DetectChars

/-- Python `int()` applied to a float: truncation toward zero. -/
def pyInt (q : ℚ) : ℤ := if q < 0 then ⌈q⌉ else ⌊q⌋

/-- The in-place `list.sort(key=lambda c: c.intRectX)` used by both
`DetectPlates.py` and `DetectChars.py`: a stable sort on the `intRectX`
key (Python's sort is stable, as is insertion sort). -/
def sortByRectX (listOfMatchingChars : List DetectChars.ContourWithData) :
    List DetectChars.ContourWithData :=
  listOfMatchingChars.insertionSort fun a b => a.intRectX ≤ b.intRectX

namespace DetectPlates

/-- Constants from the head of `DetectPlates.py`. -/
def PLATE_WIDTH_PADDING_FACTOR : ℚ := 1.3

def PLATE_HEIGHT_PADDING_FACTOR : ℚ := 1.5

/-- `checkIfContourIsValidChar` from `DetectPlates.py`.  Python `and`
short-circuits left to right, so the aspect-ratio quotient is only reached
when the area, width and height tests have all passed; a zero divisor at
the quotient would raise `ZeroDivisionError`, modelled as `none`. -/
def checkIfContourIsValidChar (possibleChar : DetectChars.ContourWithData) : Option Bool :=
  if possibleChar.fltArea > DetectChars.MIN_CONTOUR_AREA then
    if possibleChar.intRectWidth > DetectChars.MIN_PIXEL_WIDTH then
      if possibleChar.intRectHeight > DetectChars.MIN_PIXEL_HEIGHT then
        if possibleChar.intRectHeight = 0 then none
        else
          some (decide
            ( DetectChars.MIN_ASPECT_RATIO <
                (possibleChar.intRectWidth : ℚ) / (possibleChar.intRectHeight : ℚ) ∧
              (possibleChar.intRectWidth : ℚ) / (possibleChar.intRectHeight : ℚ) <
                DetectChars.MAX_ASPECT_RATIO))
      else some false
    else some false
  else some false

/-- The data of `possiblePlate.rrLocationOfPlateInScene`, the rotated
rectangle `(center, (intPlateWidth, intPlateHeight), angle)` computed by
`extractPlate`.  The cropped pixel buffer itself is outside the model. -/
structure RotatedRect where
  centerX : ℚ
  centerY : ℚ
  sizeWidth : ℤ
  sizeHeight : ℤ
  angleDeg : ℝ

/-- `extractPlate` (geometry part).  Indexing `listOfMatchingChars[0]` on an
empty list raises `IndexError`, and
`fltOppositeOfAngle / fltHypotenuseOfAngle` raises `ZeroDivisionError` when
the leftmost and rightmost sorted members share their top-left corner
(then `distanceBetweenChars` is `sqrt 0 = 0`); both are modelled as
`none`. -/
noncomputable def extractPlate (listOfMatchingChars : List DetectChars.ContourWithData) :
    Option RotatedRect :=
  match sortByRectX listOfMatchingChars with
  | [] => none
  | firstChar :: restChars =>
    let sorted := firstChar :: restChars
    let lastChar := sorted.getLast (List.cons_ne_nil firstChar restChars)
    let fltPlateCenterX : ℚ :=
      ((firstChar.intRectX + lastChar.intRectX + lastChar.intRectWidth : ℤ) : ℚ) / 2
    let fltPlateCenterY : ℚ :=
      ((firstChar.intRectY + firstChar.intRectHeight : ℤ) : ℚ) / 2
    let intPlateWidth : ℤ :=
      pyInt (((lastChar.intRectX + lastChar.intRectWidth - firstChar.intRectX : ℤ) : ℚ) *
        PLATE_WIDTH_PADDING_FACTOR)
    let intTotalOfCharHeights : ℤ := (sorted.map (fun c => c.intRectHeight)).sum
    let fltAverageCharHeight : ℚ := (intTotalOfCharHeights : ℚ) / (sorted.length : ℚ)
    let intPlateHeight : ℤ := pyInt (fltAverageCharHeight * PLATE_HEIGHT_PADDING_FACTOR)
    let fltOppositeOfAngle : ℤ := lastChar.intRectY - firstChar.intRectY
    if lastChar.intRectX - firstChar.intRectX = 0 ∧
        lastChar.intRectY - firstChar.intRectY = 0 then none
    else
      let fltCorrectionAngleInRad : ℝ :=
        Real.arctan ((fltOppositeOfAngle : ℝ) /
          DetectChars.distanceBetweenChars firstChar lastChar)
      let fltCorrectionAngleInDeg : ℝ := fltCorrectionAngleInRad * (180.0 / Real.pi)
      some { centerX := fltPlateCenterX, centerY := fltPlateCenterY,
             sizeWidth := intPlateWidth, sizeHeight := intPlateHeight,
             angleDeg := fltCorrectionAngleInDeg }

end DetectPlates

namespace DetectChars

/-- A possible plate as seen by `detectCharsInPlates`: the character
contours that `cv2.findContours` yields on the plate crop's binarized
image, and the accumulated `strChars` field (initialised to `""` by
`PossiblePlate.__init__`).  The pixel buffers themselves are outside the
model. -/
structure PossiblePlate where
  foundContours : List ContourWithData
  strChars : String

/-- The longest-group selection loop of `detectCharsInPlates`: starting
from length `0` at index `0`, a strictly longer list replaces the current
best, so the first list of maximal length wins. -/
def longestListOfMatchingChars (lists : List (List ContourWithData)) :
    List ContourWithData :=
  (lists.foldl
    (fun best cur => if best.1 < cur.length then (cur.length, cur) else best)
    (0, lists.headD [])).2

/-- `recognizeCharsInPlate` with the trained KNN classifier abstracted as
`classify`: sort the surviving characters left to right and concatenate
one classified character each. -/
def recognizeCharsInPlate (classify : ContourWithData → Char)
    (listOfMatchingChars : List ContourWithData) : String :=
  String.mk ((sortByRectX listOfMatchingChars).map classify)

/-- `detectCharsInPlates`, the per-plate character pass, with the external
classifier abstracted as `classify`.  The statement
`contours, npaHierarchy = cv2.findContours(imgThreshCopy, ...)` binds the
plate's freshly traced contours, but `del contours[:]` then clears that
very list before the `for npaContour in contours` filtering loop reads it,
so the filtering loop always iterates over an empty list. -/
noncomputable def detectCharsInPlates (classify : ContourWithData → Char)
    (listOfPossiblePlates : List PossiblePlate) : List PossiblePlate :=
  listOfPossiblePlates.map fun possiblePlate =>
    -- `contours, npaHierarchy = cv2.findContours(...)` binds
    -- `possiblePlate.foundContours`; `del contours[:]` then clears it, and
    -- the filtering loop below reads the cleared list:
    let contours : List ContourWithData := []
    let contoursValid := contours.filter fun c => c.checkIfContourIsValid
    let listOfListsOfMatchingCharsInPlate := findListOfListsOfMatchingChars contoursValid
    if listOfListsOfMatchingCharsInPlate.length = 0 then possiblePlate
    else
      let cleaned := listOfListsOfMatchingCharsInPlate.map
        fun g => removeInnerOverlappingChars (sortByRectX g)
      { possiblePlate with
          strChars := recognizeCharsInPlate classify (longestListOfMatchingChars cleaned) }

end DetectChars

open DetectChars DetectPlates

open scoped Classical

/-- Fixture: four collinear candidates (same row, 10×20 boxes, area 100);
`contD` sits exactly `5 × area` away from `contA` but within range of
`contB` and `contC`. -/
def contA : ContourWithData := ⟨0, 0, 10, 20, 100⟩

def contB : ContourWithData := ⟨100, 0, 10, 20, 100⟩

def contC : ContourWithData := ⟨200, 0, 10, 20, 100⟩

def contD : ContourWithData := ⟨500, 0, 10, 20, 100⟩

def listL0 : List ContourWithData := [contA, contB, contC, contD]

/-- Fixture: a large-area and a small-area candidate whose separation lies
between `5 × area(contQ)` and `5 × area(contP)`. -/
def contP : ContourWithData := ⟨0, 0, 10, 10, 200⟩

def contQ : ContourWithData := ⟨800, 0, 10, 10, 150⟩

/-- Fixture: two vertically stacked candidates (equal `x`). -/
def contV1 : ContourWithData := ⟨5, 0, 10, 10, 100⟩

def contV2 : ContourWithData := ⟨5, 40, 10, 10, 100⟩

/-- Fixture: two distinct candidates sharing the top-left corner `(0,0)`. -/
def contR1 : ContourWithData := ⟨0, 0, 5, 5, 25⟩

def contR2 : ContourWithData := ⟨0, 0, 9, 9, 81⟩

/-- Fixture: a two-character group with distinct corners whose padded
width `16 × 1.3 = 20.8` is not an integer. -/
def contR3 : ContourWithData := ⟨0, 0, 5, 20, 200⟩

def contR4 : ContourWithData := ⟨11, 0, 5, 20, 200⟩

/-- Fixture: a plate whose binarized crop yields the three matching
character contours `contA`, `contB`, `contC`, with `strChars` still at its
`PossiblePlate.__init__` value `""`. -/
def plate0 : PossiblePlate := ⟨[contA, contB, contC], ""⟩

/-- For two candidates on the same row the corner distance is the absolute
horizontal offset. -/
theorem distanceBetweenChars_same_y (a b : ContourWithData)
    (hy : a.intRectY = b.intRectY) :
    distanceBetweenChars a b = ((|a.intRectX - b.intRectX| : ℤ) : ℝ) := by
  unfold distanceBetweenChars
  simp only [hy, sub_self, abs_zero, Int.cast_zero]
  rw [show ((0 : ℝ)) ^ 2 = 0 by norm_num, add_zero]
  exact Real.sqrt_sq (by positivity)

/-- For two candidates on the same row but different columns the angle is
`atan 0 = 0` degrees. -/
theorem angleBetweenChars_same_y (a b : ContourWithData)
    (hy : a.intRectY = b.intRectY) (hx : a.intRectX ≠ b.intRectX) :
    angleBetweenChars a b = 0 := by
  unfold angleBetweenChars
  have hadj : |a.intRectX - b.intRectX| ≠ 0 := by
    simpa [sub_eq_zero] using hx
  simp only [hy, sub_self, abs_zero, Int.cast_zero, if_pos hadj]
  simp

/-- For two vertically stacked candidates (`dx = 0`) the returned angle is
the constant `1.5708 × 180 / π`. -/
theorem angleBetweenChars_same_x (a b : ContourWithData)
    (hx : a.intRectX = b.intRectX) :
    angleBetweenChars a b = 1.5708 * (180.0 / Real.pi) := by
  unfold angleBetweenChars
  rw [hx, sub_self, abs_zero]
  simp

/-- The five-way match test specialised to two same-row candidates: the
angle conjunct holds trivially and the distance is the horizontal
offset. -/
theorem matchesChars_same_y_iff (a b : ContourWithData)
    (hy : a.intRectY = b.intRectY) (hx : a.intRectX ≠ b.intRectX) :
    matchesChars a b ↔
      (((|a.intRectX - b.intRectX| : ℤ) : ℝ) < (a.fltArea : ℝ) * 5 ∧
        |b.fltArea - a.fltArea| / a.fltArea < 0.5 ∧
        ((|b.intRectWidth - a.intRectWidth| : ℤ) : ℚ) / (a.intRectWidth : ℚ) < 0.8 ∧
        ((|b.intRectHeight - a.intRectHeight| : ℤ) : ℚ) / (a.intRectHeight : ℚ) < 0.2) := by
  unfold matchesChars MAX_DIAG_SIZE_MULTIPLE_AWAY MAX_ANGLE_BETWEEN_CHARS
    MAX_CHANGE_IN_AREA MAX_CHANGE_IN_WIDTH MAX_CHANGE_IN_HEIGHT
  rw [distanceBetweenChars_same_y a b hy, angleBetweenChars_same_y a b hy hx]
  norm_num

/-- C8 counterexample: for the concrete vertically stacked pair
`(5,0)`/`(5,40)` (equal `x`), `angleBetweenChars` does not return exactly
90 degrees: the code converts the literal `1.5708` rad, not `π/2`, so the
fixed value is `1.5708 × 180 / π ≈ 90.0002`. -/
theorem angleBetweenChars_dx_zero_not_ninety :
    contV1.intRectX = contV2.intRectX ∧ angleBetweenChars contV1 contV2 ≠ 90 := by
  refine ⟨rfl, ?_⟩
  rw [angleBetweenChars_same_x contV1 contV2 rfl]
  have hpi : Real.pi < 3.141593 := Real.pi_lt_d6
  have hpos : (0 : ℝ) < Real.pi := Real.pi_pos
  intro h
  rw [show (1.5708 : ℝ) * (180.0 / Real.pi) = 1.5708 * 180.0 / Real.pi by ring] at h
  rw [div_eq_iff (ne_of_gt hpos)] at h
  linarith

/-- C8 amended: whenever the two candidates' boxes share their `x`
coordinate (`dx = 0`), `angleBetweenChars` returns the fixed value
`1.5708 × 180 / π` degrees — slightly more than 90° (≈ 90.0002°), because
the hard-coded radian constant `1.5708` exceeds `π/2`. -/
theorem angleBetweenChars_dx_zero (a b : ContourWithData)
    (hx : a.intRectX = b.intRectX) :
    angleBetweenChars a b = 1.5708 * (180.0 / Real.pi) ∧
      90 < angleBetweenChars a b := by
  refine ⟨angleBetweenChars_same_x a b hx, ?_⟩
  rw [angleBetweenChars_same_x a b hx]
  have hpi : Real.pi < 3.141593 := Real.pi_lt_d6
  have hpos : (0 : ℝ) < Real.pi := Real.pi_pos
  rw [show (1.5708 : ℝ) * (180.0 / Real.pi) = 1.5708 * 180.0 / Real.pi by ring]
  rw [lt_div_iff₀ hpos]
  linarith

/-- C8 witness: the amended statement at the concrete vertically stacked
pair. -/
theorem angleBetweenChars_dx_zero_witness :
    contV1.intRectX = contV2.intRectX ∧
      (angleBetweenChars contV1 contV2 = 1.5708 * (180.0 / Real.pi) ∧
        90 < angleBetweenChars contV1 contV2) :=
  ⟨rfl, angleBetweenChars_dx_zero contV1 contV2 rfl⟩

/-- Unfolding equation: the scan of an exhausted pending list is empty. -/
theorem fllomcScan_nil (listOfContours : List ContourWithData) :
    fllomcScan [] listOfContours = [] := by
  simp [fllomcScan]

/-- Unfolding equation: one step of the scan. -/
theorem fllomcScan_cons (contour : ContourWithData)
    (pendingRest listOfContours : List ContourWithData) :
    fllomcScan (contour :: pendingRest) listOfContours =
      if (matchGroup contour listOfContours).length < MIN_NUMBER_OF_MATCHING_CHARS then
        fllomcScan pendingRest listOfContours
      else
        matchGroup contour listOfContours ::
          fllomcScan (remainderAfter contour listOfContours)
            (remainderAfter contour listOfContours) := by
  rw [fllomcScan]

/-- Every member of every emitted group comes from the candidate pool. -/
theorem fllomcScan_mem_of_mem (pending listOfContours : List ContourWithData)
    (h : pending ⊆ listOfContours) :
    ∀ G ∈ fllomcScan pending listOfContours, ∀ x ∈ G, x ∈ listOfContours := by
  induction pending, listOfContours using fllomcScan.induct with
  | case1 L => simp [fllomcScan_nil]
  | case2 c rest L hsmall ih =>
    rw [fllomcScan_cons, if_pos hsmall]
    exact ih (fun x hx => h (List.mem_cons_of_mem _ hx))
  | case3 c rest L hsmall ih =>
    rw [fllomcScan_cons, if_neg hsmall]
    intro G hG x hxG
    rcases List.mem_cons.1 hG with rfl | hG2
    · rcases (by simpa [matchGroup] using hxG :
          x ∈ findListOfMatchingChars c L ∨ x = c) with hx | rfl
      · exact List.mem_of_mem_filter hx
      · exact h (by simp)
    · exact List.mem_of_mem_filter (ih (fun y hy => hy) G hG2 x hxG)

/-- Every emitted group has at least `MIN_NUMBER_OF_MATCHING_CHARS`
members. -/
theorem fllomcScan_min_length (pending listOfContours : List ContourWithData) :
    ∀ G ∈ fllomcScan pending listOfContours,
      MIN_NUMBER_OF_MATCHING_CHARS ≤ G.length := by
  induction pending, listOfContours using fllomcScan.induct with
  | case1 L => simp [fllomcScan_nil]
  | case2 c rest L hsmall ih =>
    rw [fllomcScan_cons, if_pos hsmall]
    exact ih
  | case3 c rest L hsmall ih =>
    rw [fllomcScan_cons, if_neg hsmall]
    intro G hG
    rcases List.mem_cons.1 hG with rfl | hG2
    · exact Nat.le_of_not_lt hsmall
    · exact ih G hG2

/-- Emitted groups are pairwise disjoint: a group's members are filtered
out of the pool before the recursive call that produces the later
groups. -/
theorem fllomcScan_pairwise_disjoint (pending listOfContours : List ContourWithData) :
    (fllomcScan pending listOfContours).Pairwise
      (fun G₁ G₂ => ∀ x ∈ G₁, x ∉ G₂) := by
  induction pending, listOfContours using fllomcScan.induct with
  | case1 L => simp [fllomcScan_nil]
  | case2 c rest L hsmall ih =>
    rw [fllomcScan_cons, if_pos hsmall]
    exact ih
  | case3 c rest L hsmall ih =>
    rw [fllomcScan_cons, if_neg hsmall]
    refine List.Pairwise.cons ?_ ih
    intro G hG x hxG hxG2
    have hxR : x ∈ remainderAfter c L :=
      fllomcScan_mem_of_mem _ _ (fun y hy => hy) G hG x hxG2
    have : x ∉ c :: matchGroup c L := by
      have := List.of_mem_filter hxR
      simpa using this
    exact this (List.mem_cons_of_mem _ hxG)

/-- On a duplicate-free pool every emitted group is duplicate-free. -/
theorem fllomcScan_nodup (pending listOfContours : List ContourWithData)
    (hN : listOfContours.Nodup) :
    ∀ G ∈ fllomcScan pending listOfContours, G.Nodup := by
  induction pending, listOfContours using fllomcScan.induct with
  | case1 L => simp [fllomcScan_nil]
  | case2 c rest L hsmall ih =>
    rw [fllomcScan_cons, if_pos hsmall]
    exact ih hN
  | case3 c rest L hsmall ih =>
    rw [fllomcScan_cons, if_neg hsmall]
    intro G hG
    rcases List.mem_cons.1 hG with rfl | hG2
    · rw [matchGroup, List.nodup_append]
      refine ⟨hN.filter _, List.nodup_singleton c, ?_⟩
      intro x hx hxc
      have hxne : x ≠ c := by
        have := List.of_mem_filter hx
        simp only [decide_eq_true_eq] at this
        exact this.1
      simp at hxc
      exact hxne hxc
    · exact ih (hN.filter _) G hG2

/-- C2 amended: on every duplicate-free candidate list the cluster
partitioner returns pairwise-disjoint groups, each of size at least
`MIN_NUMBER_OF_MATCHING_CHARS` (3), each duplicate-free and drawn from the
input, so every candidate appears in at most one group.  The claimed union
equality fails (see the counterexample): a dropped candidate is one that
matches fewer than 2 of the candidates REMAINING at its recursion stage,
which can be fewer than its matches in the original set. -/
theorem findListOfListsOfMatchingChars_partition
    (listOfContours : List ContourWithData) (hN : listOfContours.Nodup) :
    (findListOfListsOfMatchingChars listOfContours).Pairwise
        (fun G₁ G₂ => ∀ x ∈ G₁, x ∉ G₂) ∧
      ∀ G ∈ findListOfListsOfMatchingChars listOfContours,
        MIN_NUMBER_OF_MATCHING_CHARS ≤ G.length ∧ G.Nodup ∧
          ∀ x ∈ G, x ∈ listOfContours := by
  unfold findListOfListsOfMatchingChars
  refine ⟨fllomcScan_pairwise_disjoint _ _, fun G hG => ?_⟩
  exact ⟨fllomcScan_min_length _ _ G hG, fllomcScan_nodup _ _ hN G hG,
    fllomcScan_mem_of_mem _ _ (fun y hy => hy) G hG⟩

/-- C2 witness: the amended partition statement at the concrete
duplicate-free four-candidate list. -/
theorem findListOfListsOfMatchingChars_partition_witness :
    listL0.Nodup ∧
      ((findListOfListsOfMatchingChars listL0).Pairwise
          (fun G₁ G₂ => ∀ x ∈ G₁, x ∉ G₂) ∧
        ∀ G ∈ findListOfListsOfMatchingChars listL0,
          MIN_NUMBER_OF_MATCHING_CHARS ≤ G.length ∧ G.Nodup ∧
            ∀ x ∈ G, x ∈ listL0) :=
  ⟨by decide, findListOfListsOfMatchingChars_partition listL0 (by decide)⟩

/-- `contA` matches `contB`: separation 100, bound `area × 5 = 500`. -/
theorem matchesChars_contA_contB : matchesChars contA contB := by
  rw [matchesChars_same_y_iff contA contB rfl (by decide)]
  norm_num [contA, contB]

/-- `contA` matches `contC`: separation 200 under the bound 500. -/
theorem matchesChars_contA_contC : matchesChars contA contC := by
  rw [matchesChars_same_y_iff contA contC rfl (by decide)]
  norm_num [contA, contC]

/-- `contA` does not match `contD`: separation exactly `area × 5 = 500`,
and the strict bound excludes it. -/
theorem not_matchesChars_contA_contD : ¬ matchesChars contA contD := by
  rw [matchesChars_same_y_iff contA contD rfl (by decide)]
  norm_num [contA, contD]

/-- `contD` matches `contB`: separation 400 under the bound 500. -/
theorem matchesChars_contD_contB : matchesChars contD contB := by
  rw [matchesChars_same_y_iff contD contB rfl (by decide)]
  norm_num [contD, contB]

/-- `contD` matches `contC`: separation 300 under the bound 500. -/
theorem matchesChars_contD_contC : matchesChars contD contC := by
  rw [matchesChars_same_y_iff contD contC rfl (by decide)]
  norm_num [contD, contC]

/-- `contD` does not match `contA`: separation exactly 500. -/
theorem not_matchesChars_contD_contA : ¬ matchesChars contD contA := by
  rw [matchesChars_same_y_iff contD contA rfl (by decide)]
  norm_num [contD, contA]

/-- `contP` matches `contQ`: separation 800 under `area(contP) × 5 = 1000`
and area change `50/200 = 0.25 < 0.5`. -/
theorem matchesChars_contP_contQ : matchesChars contP contQ := by
  rw [matchesChars_same_y_iff contP contQ rfl (by decide)]
  norm_num [contP, contQ]

/-- `contQ` does not match `contP`: the same separation 800 exceeds
`area(contQ) × 5 = 750`. -/
theorem not_matchesChars_contQ_contP : ¬ matchesChars contQ contP := by
  rw [matchesChars_same_y_iff contQ contP rfl (by decide)]
  norm_num [contQ, contP]

/-- Evaluation: the matches of `contA` within the four-candidate list. -/
theorem findListOfMatchingChars_contA_listL0 :
    findListOfMatchingChars contA listL0 = [contB, contC] := by
  unfold findListOfMatchingChars listL0
  simp only [List.filter_cons, List.filter_nil, decide_eq_true_eq]
  rw [if_neg (fun h => h.1 rfl),
    if_pos ⟨by decide, matchesChars_contA_contB⟩,
    if_pos ⟨by decide, matchesChars_contA_contC⟩,
    if_neg (fun h => not_matchesChars_contA_contD h.2)]

/-- Evaluation: the matches of `contD` within the four-candidate list. -/
theorem findListOfMatchingChars_contD_listL0 :
    findListOfMatchingChars contD listL0 = [contB, contC] := by
  unfold findListOfMatchingChars listL0
  simp only [List.filter_cons, List.filter_nil, decide_eq_true_eq]
  rw [if_neg (fun h => not_matchesChars_contD_contA h.2),
    if_pos ⟨by decide, matchesChars_contD_contB⟩,
    if_pos ⟨by decide, matchesChars_contD_contC⟩,
    if_neg (fun h => h.1 rfl)]

/-- Evaluation: `contD` alone matches nothing. -/
theorem findListOfMatchingChars_contD_single :
    findListOfMatchingChars contD [contD] = [] := by
  unfold findListOfMatchingChars
  simp only [List.filter_cons, List.filter_nil, decide_eq_true_eq]
  rw [if_neg (fun h => h.1 rfl)]

/-- Evaluation: the group grown from `contA` in the four-candidate list. -/
theorem matchGroup_contA_listL0 :
    matchGroup contA listL0 = [contB, contC, contA] := by
  rw [matchGroup, findListOfMatchingChars_contA_listL0]
  rfl

/-- Evaluation: the group grown from `contD` alone. -/
theorem matchGroup_contD_single : matchGroup contD [contD] = [contD] := by
  rw [matchGroup, findListOfMatchingChars_contD_single]
  rfl

/-- Evaluation: after emitting `contA`'s group only `contD` remains. -/
theorem remainderAfter_contA_listL0 : remainderAfter contA listL0 = [contD] := by
  unfold remainderAfter
  rw [matchGroup_contA_listL0]
  decide

/-- Evaluation: the partitioner on the four-candidate list emits exactly
one group, `[contB, contC, contA]`; `contD` is dropped because its two
matches were absorbed into the first group. -/
theorem findListOfListsOfMatchingChars_listL0 :
    findListOfListsOfMatchingChars listL0 = [[contB, contC, contA]] := by
  unfold findListOfListsOfMatchingChars
  show fllomcScan (contA :: [contB, contC, contD]) listL0 = _
  rw [fllomcScan_cons, matchGroup_contA_listL0]
  rw [if_neg (by norm_num [MIN_NUMBER_OF_MATCHING_CHARS])]
  rw [remainderAfter_contA_listL0]
  rw [fllomcScan_cons, matchGroup_contD_single]
  rw [if_pos (by norm_num [MIN_NUMBER_OF_MATCHING_CHARS])]
  rw [fllomcScan_nil]

/-- C6: the pairwise similarity test is asymmetric.  For the concrete pair
`contP` (area 200) and `contQ` (area 150), separated by 800 pixels,
`contQ` is listed as a match of `contP` (bound `200 × 5 = 1000`) while in
the swapped direction `contP` is not a match of `contQ` (bound
`150 × 5 = 750`): the distance bound scales with the first argument's
area, as do the relative-change divisors. -/
theorem findListOfMatchingChars_asymmetric :
    contQ.fltArea < contP.fltArea ∧
      findListOfMatchingChars contP [contP, contQ] = [contQ] ∧
      findListOfMatchingChars contQ [contP, contQ] = [] := by
  refine ⟨by decide, ?_, ?_⟩
  · unfold findListOfMatchingChars
    simp only [List.filter_cons, List.filter_nil, decide_eq_true_eq]
    rw [if_neg (fun h => h.1 rfl), if_pos ⟨by decide, matchesChars_contP_contQ⟩]
  · unfold findListOfMatchingChars
    simp only [List.filter_cons, List.filter_nil, decide_eq_true_eq]
    rw [if_neg (fun h => not_matchesChars_contQ_contP h.2),
      if_neg (fun h => h.1 rfl)]

/-- C2 counterexample: on the concrete list `listL0` the claimed union
equality fails.  `contD` belongs to the input and matches two other
original candidates (`contB`, `contC`, so it is not a fewer-than-2-matches
candidate), yet it ends up in no emitted group: its matches were absorbed
into the group grown from `contA`, and in the remaining pool `[contD]` it
matches nothing. -/
theorem findListOfListsOfMatchingChars_not_complete :
    contD ∈ listL0 ∧
      (∀ G ∈ findListOfListsOfMatchingChars listL0, contD ∉ G) ∧
      ¬ (findListOfMatchingChars contD listL0).length <
          MIN_NUMBER_OF_MATCHING_CHARS - 1 := by
  refine ⟨by decide, ?_, ?_⟩
  · rw [findListOfListsOfMatchingChars_listL0]
    intro G hG
    rw [List.mem_singleton] at hG
    subst hG
    decide
  · rw [findListOfMatchingChars_contD_listL0]
    decide

/-- C1 (code bug): because `del contours[:]` clears the traced contour
list before the filtering loop, `detectCharsInPlates` returns every plate
unchanged for every classifier — `strChars` is never assigned.  In
particular `plate0`'s crop does yield three contours that all pass the
per-plate candidate filter and form a matching group (the intended
pipeline would produce a non-empty group list), yet its `strChars` stays
at the initial `""`. -/
theorem detectCharsInPlates_dead_contours :
    (∀ classify : ContourWithData → Char, ∀ plates : List PossiblePlate,
        detectCharsInPlates classify plates = plates) ∧
      findListOfListsOfMatchingChars
          (plate0.foundContours.filter fun c => c.checkIfContourIsValid) ≠ [] ∧
      plate0.strChars = "" := by
  have h0 : findListOfListsOfMatchingChars ([] : List ContourWithData) = [] := by
    unfold findListOfListsOfMatchingChars
    exact fllomcScan_nil []
  refine ⟨fun classify plates => ?_, ?_, rfl⟩
  · unfold detectCharsInPlates
    refine (List.map_congr_left fun p hp => ?_).trans (List.map_id plates)
    simp only [List.filter_nil, h0, List.length_nil, id]
    simp
  · have hvalid : plate0.foundContours.filter
        (fun c => c.checkIfContourIsValid) = [contA, contB, contC] := by
      decide
    rw [hvalid]
    show fllomcScan (contA :: [contB, contC]) [contA, contB, contC] ≠ []
    have hfind : findListOfMatchingChars contA [contA, contB, contC] = [contB, contC] := by
      unfold findListOfMatchingChars
      simp only [List.filter_cons, List.filter_nil, decide_eq_true_eq]
      rw [if_neg (fun h => h.1 rfl),
        if_pos ⟨by decide, matchesChars_contA_contB⟩,
        if_pos ⟨by decide, matchesChars_contA_contC⟩]
    have hmg : matchGroup contA [contA, contB, contC] = [contB, contC, contA] := by
      rw [matchGroup, hfind]
      rfl
    rw [fllomcScan_cons, hmg]
    rw [if_neg (by norm_num [MIN_NUMBER_OF_MATCHING_CHARS])]
    exact List.cons_ne_nil _ _

/-- C3 counterexample: the two-member group `[contR1, contR2]` is sorted
by `boundingBox.x` ascending, yet `extractPlate` raises: both members
share the top-left corner `(0,0)`, so `distanceBetweenChars` between the
leftmost and rightmost member is `0` and the rotation-angle quotient
divides by zero. -/
theorem extractPlate_same_corner_raises :
    List.Sorted (fun a b : ContourWithData => a.intRectX ≤ b.intRectX) [contR1, contR2] ∧
      ([contR1, contR2] : List ContourWithData).length = 2 ∧
      extractPlate [contR1, contR2] = none := by
  refine ⟨by decide, rfl, ?_⟩
  unfold extractPlate
  rw [show sortByRectX [contR1, contR2] = [contR1, contR2] from rfl]
  rfl

/-- C3 amended: `extractPlate` completes without raising exactly when the
leftmost and rightmost members of the sorted group have distinct top-left
corners; under that extra hypothesis (which the claimed preconditions do
not guarantee) it returns a plate region. -/
theorem extractPlate_some_of_corner_ne (group : List ContourWithData)
    (firstChar lastChar : ContourWithData)
    (hhead : (sortByRectX group).head? = some firstChar)
    (hlast : (sortByRectX group).getLast? = some lastChar)
    (hcorner : firstChar.intRectX ≠ lastChar.intRectX ∨
      firstChar.intRectY ≠ lastChar.intRectY) :
    (extractPlate group).isSome := by
  unfold extractPlate
  cases hs : sortByRectX group with
  | nil =>
    rw [hs] at hhead
    exact absurd hhead (by simp)
  | cons f rest =>
    rw [hs] at hhead hlast
    simp only [List.head?_cons, Option.some.injEq] at hhead
    subst hhead
    have hlast2 : (f :: rest).getLast (List.cons_ne_nil f rest) = lastChar := by
      rw [List.getLast?_eq_getLast _ (List.cons_ne_nil f rest)] at hlast
      exact Option.some.inj hlast
    dsimp only
    rw [hlast2]
    rw [if_neg ?side]
    · simp
    case side =>
      rintro ⟨h1, h2⟩
      rcases hcorner with hc | hc
      · exact hc (by omega)
      · exact hc (by omega)

/-- C3 witness: the amended statement at the concrete two-member group
with distinct corners. -/
theorem extractPlate_some_of_corner_ne_witness :
    ((sortByRectX [contR3, contR4]).head? = some contR3) ∧
      ((sortByRectX [contR3, contR4]).getLast? = some contR4) ∧
      (contR3.intRectX ≠ contR4.intRectX ∨ contR3.intRectY ≠ contR4.intRectY) ∧
      (extractPlate [contR3, contR4]).isSome :=
  ⟨rfl, rfl, Or.inl (by decide),
    extractPlate_some_of_corner_ne [contR3, contR4] contR3 contR4 rfl rfl
      (Or.inl (by decide))⟩

/-- C5 counterexample: on the group `[contR3, contR4]` the raw padded
width is `(11 + 5 − 0) × 1.3 = 20.8`, but the stored plate size is the
`int()`-truncated `20`: the size is integer-valued, not the exact
floating-point product the claim states. -/
theorem extractPlate_size_not_exact :
    (extractPlate [contR3, contR4]).map (fun r => (r.sizeWidth : ℚ)) = some 20 ∧
      ((contR4.intRectX + contR4.intRectWidth - contR3.intRectX : ℤ) : ℚ) *
          PLATE_WIDTH_PADDING_FACTOR ≠ 20 := by
  constructor
  · unfold extractPlate
    rw [show sortByRectX [contR3, contR4] = [contR3, contR4] from rfl]
    dsimp only
    rw [if_neg (by decide)]
    simp only [Option.map_some', Option.some.injEq]
    show ((pyInt (((contR4.intRectX + contR4.intRectWidth - contR3.intRectX : ℤ) : ℚ) *
      PLATE_WIDTH_PADDING_FACTOR) : ℤ) : ℚ) = 20
    rw [show (((contR4.intRectX + contR4.intRectWidth - contR3.intRectX : ℤ) : ℚ) *
        PLATE_WIDTH_PADDING_FACTOR) = 104 / 5 by
      norm_num [contR3, contR4, PLATE_WIDTH_PADDING_FACTOR]]
    rw [show pyInt (104 / 5) = 20 by
      rw [pyInt, if_neg (by norm_num)]
      norm_num [Int.floor_eq_iff]]
    norm_num
  · norm_num [contR3, contR4, PLATE_WIDTH_PADDING_FACTOR]

/-- C5 amended: the stored plate size is integer-valued — `sizeWidth` is
the `int()` truncation of `(rightmost.x + rightmost.width − leftmost.x) ×
1.3` and `sizeHeight` the `int()` truncation of the average character
height `× 1.5` — rather than the exact floating-point products. -/
theorem extractPlate_size (group : List ContourWithData)
    (firstChar lastChar : ContourWithData) (r : RotatedRect)
    (hhead : (sortByRectX group).head? = some firstChar)
    (hlast : (sortByRectX group).getLast? = some lastChar)
    (hr : extractPlate group = some r) :
    r.sizeWidth = pyInt (((lastChar.intRectX + lastChar.intRectWidth -
        firstChar.intRectX : ℤ) : ℚ) * PLATE_WIDTH_PADDING_FACTOR) ∧
      r.sizeHeight = pyInt (((((sortByRectX group).map fun c =>
          c.intRectHeight).sum : ℤ) : ℚ) /
        ((sortByRectX group).length : ℚ) * PLATE_HEIGHT_PADDING_FACTOR) := by
  unfold extractPlate at hr
  cases hs : sortByRectX group with
  | nil =>
    rw [hs] at hr
    exact absurd hr (by simp)
  | cons f rest =>
    rw [hs] at hr hhead hlast
    simp only [List.head?_cons, Option.some.injEq] at hhead
    subst hhead
    have hlast2 : (f :: rest).getLast (List.cons_ne_nil f rest) = lastChar := by
      rw [List.getLast?_eq_getLast _ (List.cons_ne_nil f rest)] at hlast
      exact Option.some.inj hlast
    dsimp only at hr
    rw [hlast2] at hr
    by_cases hz : lastChar.intRectX - f.intRectX = 0 ∧ lastChar.intRectY - f.intRectY = 0
    · rw [if_pos hz] at hr
      exact absurd hr (by simp)
    · rw [if_neg hz] at hr
      have hrec := Option.some.inj hr
      subst hrec
      exact ⟨rfl, rfl⟩

/-- C5 witness: the amended statement at the concrete two-member group. -/
theorem extractPlate_size_witness :
    ((sortByRectX [contR3, contR4]).head? = some contR3) ∧
      ((sortByRectX [contR3, contR4]).getLast? = some contR4) ∧
      ∃ r, extractPlate [contR3, contR4] = some r ∧
        r.sizeWidth = pyInt (((contR4.intRectX + contR4.intRectWidth -
            contR3.intRectX : ℤ) : ℚ) * PLATE_WIDTH_PADDING_FACTOR) ∧
        r.sizeHeight = pyInt (((((sortByRectX [contR3, contR4]).map fun c =>
            c.intRectHeight).sum : ℤ) : ℚ) /
          ((sortByRectX [contR3, contR4]).length : ℚ) * PLATE_HEIGHT_PADDING_FACTOR) := by
  refine ⟨rfl, rfl, ?_⟩
  have hsome : (extractPlate [contR3, contR4]).isSome := by
    unfold extractPlate
    rw [show sortByRectX [contR3, contR4] = [contR3, contR4] from rfl]
    dsimp only
    rw [if_neg (by decide)]
    simp
  cases hval : extractPlate [contR3, contR4] with
  | none =>
    rw [hval] at hsome
    exact absurd hsome (by simp)
  | some r =>
    exact ⟨r, rfl, extractPlate_size [contR3, contR4] contR3 contR4 r rfl rfl hval⟩

/-- C9: the candidate filter `checkIfContourIsValidChar` is total on every
contour: the aspect-ratio division `width / height` is never reached with a
zero divisor, because the short-circuiting height-minimum conjunct
(`intRectHeight > MIN_PIXEL_HEIGHT`) is evaluated before it and excludes
zero-height contours, so no contour makes the filter raise. -/
theorem checkIfContourIsValidChar_total (possibleChar : ContourWithData) :
    checkIfContourIsValidChar possibleChar ≠ none := by
  unfold checkIfContourIsValidChar
  split_ifs with h1 h2 h3 h4 <;> simp_all [MIN_PIXEL_HEIGHT]

/-- C4 counterexample: a 10×10 contour of area 200 sits exactly at the
`MAX_ASPECT_RATIO` threshold (aspect `1.0`) and clears every claimed
inclusive bound (area at least both `MIN_PIXEL_AREA = 80` and
`MIN_CONTOUR_AREA = 100`, width at least `MIN_PIXEL_WIDTH`, height at
least `MIN_PIXEL_HEIGHT`, aspect within the closed interval), yet the
filter rejects it: the code's bounds are strict, so a contour exactly at a
threshold does not pass. -/
theorem checkIfContourIsValidChar_not_inclusive :
    checkIfContourIsValidChar ⟨0, 0, 10, 10, 200⟩ = some false ∧
      MIN_PIXEL_AREA ≤ (200 : ℚ) ∧ MIN_CONTOUR_AREA ≤ (200 : ℚ) ∧
      MIN_PIXEL_WIDTH ≤ (10 : ℤ) ∧ MIN_PIXEL_HEIGHT ≤ (10 : ℤ) ∧
      MIN_ASPECT_RATIO ≤ (10 : ℚ) / (10 : ℚ) ∧
      (10 : ℚ) / (10 : ℚ) ≤ MAX_ASPECT_RATIO := by
  norm_num [checkIfContourIsValidChar, MIN_PIXEL_AREA, MIN_CONTOUR_AREA,
    MIN_PIXEL_WIDTH, MIN_PIXEL_HEIGHT, MIN_ASPECT_RATIO, MAX_ASPECT_RATIO]

/-- C4 amended: the candidate filter accepts a contour if and only if all
of the following hold with every bound STRICT (a contour exactly at any
threshold is rejected): `area > MIN_CONTOUR_AREA` (100, the same constant
for both passes), `width > MIN_PIXEL_WIDTH`, `height > MIN_PIXEL_HEIGHT`,
and `MIN_ASPECT_RATIO < width/height < MAX_ASPECT_RATIO`. -/
theorem checkIfContourIsValidChar_iff (possibleChar : ContourWithData) :
    checkIfContourIsValidChar possibleChar = some true ↔
      (possibleChar.fltArea > MIN_CONTOUR_AREA ∧
        possibleChar.intRectWidth > MIN_PIXEL_WIDTH ∧
        possibleChar.intRectHeight > MIN_PIXEL_HEIGHT ∧
        MIN_ASPECT_RATIO <
          (possibleChar.intRectWidth : ℚ) / (possibleChar.intRectHeight : ℚ) ∧
        (possibleChar.intRectWidth : ℚ) / (possibleChar.intRectHeight : ℚ) <
          MAX_ASPECT_RATIO) := by
  unfold checkIfContourIsValidChar
  split_ifs with h1 h2 h3 h4 <;> simp_all [MIN_PIXEL_HEIGHT]

/-- C7: the overlap resolver is idempotent — running
`removeInnerOverlappingChars` twice returns exactly the list one run
returns — and a candidate survives one run precisely when no other member
of the input group strictly contains its bounding rectangle on all four
sides. -/
theorem removeInnerOverlappingChars_idempotent
    (listOfMatchingChars : List ContourWithData) :
    removeInnerOverlappingChars (removeInnerOverlappingChars listOfMatchingChars) =
        removeInnerOverlappingChars listOfMatchingChars ∧
      ∀ x, x ∈ removeInnerOverlappingChars listOfMatchingChars ↔
        x ∈ listOfMatchingChars ∧
          ¬ ∃ y ∈ listOfMatchingChars, y ≠ x ∧
            x.intRectX > y.intRectX ∧ x.intRectY > y.intRectY ∧
            x.intRectX + x.intRectWidth < y.intRectX + y.intRectWidth ∧
            x.intRectY + x.intRectHeight < y.intRectY + y.intRectHeight := by
  constructor
  · apply List.filter_eq_self.2
    intro x hx
    have hpx : ¬ ∃ y ∈ listOfMatchingChars, y ≠ x ∧
        x.intRectX > y.intRectX ∧ x.intRectY > y.intRectY ∧
        x.intRectX + x.intRectWidth < y.intRectX + y.intRectWidth ∧
        x.intRectY + x.intRectHeight < y.intRectY + y.intRectHeight := by
      have := List.of_mem_filter hx
      simpa using this
    rw [decide_eq_true_eq]
    rintro ⟨y, hy, hrest⟩
    exact hpx ⟨y, List.mem_of_mem_filter hy, hrest⟩
  · intro x
    simp [removeInnerOverlappingChars, List.mem_filter]

/-- C10: on every non-empty group the overlap resolver keeps at least one
candidate — a member of maximal bounding-box width is never strictly
contained in another member — and its output is a subsequence of the
input, preserving the input's order. -/
theorem removeInnerOverlappingChars_nonempty_sublist
    (listOfMatchingChars : List ContourWithData)
    (hne : listOfMatchingChars ≠ []) :
    removeInnerOverlappingChars listOfMatchingChars ≠ [] ∧
      (removeInnerOverlappingChars listOfMatchingChars).Sublist listOfMatchingChars := by
  refine ⟨?_, List.filter_sublist _⟩
  obtain ⟨m, hm⟩ : ∃ m, m ∈ listOfMatchingChars.argmax fun c => c.intRectWidth := by
    cases h : listOfMatchingChars.argmax fun c => c.intRectWidth with
    | none => exact absurd (List.argmax_eq_none.1 h) hne
    | some m => exact ⟨m, by simp [h]⟩
  have hmem : m ∈ listOfMatchingChars := List.argmax_mem hm
  have hsurv : m ∈ removeInnerOverlappingChars listOfMatchingChars := by
    rw [removeInnerOverlappingChars, List.mem_filter]
    refine ⟨hmem, ?_⟩
    rw [decide_eq_true_eq]
    rintro ⟨y, hy, -, h1, -, h3, -⟩
    have hle : y.intRectWidth ≤ m.intRectWidth := List.le_of_mem_argmax hy hm
    omega
  exact List.ne_nil_of_mem hsurv

/-- C10 witness: on a concrete one-element group the resolver returns a
non-empty subsequence. -/
theorem removeInnerOverlappingChars_nonempty_sublist_witness :
    ([(⟨0, 0, 1, 1, 1⟩ : ContourWithData)] ≠ []) ∧
      (removeInnerOverlappingChars [(⟨0, 0, 1, 1, 1⟩ : ContourWithData)] ≠ [] ∧
        (removeInnerOverlappingChars
          [(⟨0, 0, 1, 1, 1⟩ : ContourWithData)]).Sublist
          [(⟨0, 0, 1, 1, 1⟩ : ContourWithData)]) :=
  ⟨by decide, removeInnerOverlappingChars_nonempty_sublist _ (by decide)⟩
